import Mathlib

/-!
Verification development for the PinchBench grading engine
(src/scripts/lib_agent.py and src/scripts/lib_grading.py).

The Python code is shallowly embedded: JSON/Python values become the
inductive type `PyVal`, Python floats are modelled as exact rationals
(`ℚ`), dictionaries become association lists in insertion order
(matching Python 3.7+ dict iteration order), and fallible code returns
`Except`.  The Python standard-library JSON decoder (`json.loads`) is
abstracted as a function parameter `J : String → Except String PyVal`;
everything downstream of it is translated from the repository source.
-/

namespace PinchBench

/-- Embedding of Python/JSON values as passed around by the grading
engine: `none` is Python `None`/JSON null; numbers keep their Python
class (`bool`, `int`, `float`), with floats modelled as exact
rationals. -/
inductive PyVal where
  | none
  | bool (b : Bool)
  | int (n : Int)
  | float (q : ℚ)
  | str (s : String)
  | list (xs : List PyVal)
  | dict (entries : List (String × PyVal))

/-- Python truthiness (`bool(v)`): `None`/`False`/zero/empty are falsy. -/
def PyVal.truthy : PyVal → Bool
  | .none => false
  | .bool b => b
  | .int n => n != 0
  | .float q => q != 0
  | .str s => s != ""
  | .list xs => !xs.isEmpty
  | .dict es => !es.isEmpty

/-- `isinstance(v, (int, float))`.  In Python, `bool` is a subclass of
`int`, so booleans count as numbers. -/
def PyVal.isNumber : PyVal → Bool
  | .bool _ => true
  | .int _ => true
  | .float _ => true
  | _ => false

/-- The rational value of a Python number (`float(v)` restricted to
`int`/`float`/`bool` arguments).  `Option.none` exactly when
`isNumber` is false. -/
def PyVal.toQ : PyVal → Option ℚ
  | .bool b => some (if b then 1 else 0)
  | .int n => some (n : ℚ)
  | .float q => some q
  | _ => Option.none

/-- `d[k]` lookup on a dict (first entry with the key, as in a Python
dict whose keys are unique). -/
def dictGet (d : List (String × PyVal)) (k : String) : Option PyVal :=
  (d.find? (fun kv => kv.1 == k)).map (fun kv => kv.2)

/-- `d.get(k, default)`.  As in Python, an entry whose value is JSON
null yields `PyVal.none`, indistinguishable from an absent key with a
`None` default. -/
def pyGet (d : List (String × PyVal)) (k : String) (dflt : PyVal) : PyVal :=
  match dictGet d k with
  | some v => v
  | Option.none => dflt

/-- Whitespace-strip on character lists, modelling Python `str.strip()`. -/
def trimChars (l : List Char) : List Char :=
  ((l.dropWhile Char.isWhitespace).reverse.dropWhile Char.isWhitespace).reverse

/-- `pat in s` substring test (Python `in` on strings). -/
def substr_in (pat : List Char) : List Char → Bool
  | [] => pat == []
  | c :: cs => pat.isPrefixOf (c :: cs) || substr_in pat cs

/-- Models Python `float(s)` on plain decimal string literals:
optional sign, digits with at most one decimal point (`"1.0"`,
`"-3."`, `".5"`).  Exponents, `inf`/`nan` and underscores are outside
the modelled fragment and map to `Option.none`. -/
def parse_decimal (s : String) : Option ℚ :=
  let chars := trimChars s.data
  let signed : ℚ × List Char :=
    match chars with
    | c :: cs => if c = '-' then (-1, cs) else if c = '+' then (1, cs) else (1, chars)
    | [] => (1, [])
  let sign := signed.1
  let digitsVal : List Char → ℚ := fun l =>
    ((l.map (fun c => (c.toNat - 48 : ℕ))).foldl (fun acc d => 10 * acc + d) 0 : ℕ)
  match signed.2.splitOn '.' with
  | [ip] =>
    if ip ≠ [] ∧ ip.all Char.isDigit then some (sign * digitsVal ip) else Option.none
  | [ip, fp] =>
    if (ip ++ fp) ≠ [] ∧ (ip ++ fp).all Char.isDigit then
      some (sign * (digitsVal ip + digitsVal fp / (10 : ℚ) ^ fp.length))
    else Option.none
  | _ => Option.none

/-- Python `float(v)`: identity on numbers (with `True ↦ 1.0`,
`False ↦ 0.0`), decimal parsing on strings, and failure
(`TypeError`/`ValueError`) on everything else. -/
def pyFloat : PyVal → Option ℚ
  | .bool b => some (if b then 1 else 0)
  | .int n => some (n : ℚ)
  | .float q => some q
  | .str s => parse_decimal s
  | _ => Option.none

/-- Python `str(v)` as used for judge notes and transcript-summary
previews.  String inputs pass through unchanged; container and float
reprs are abbreviated (they feed only the abstracted judge prompt and
free-text notes, which no claim inspects). -/
def pyStr : PyVal → String
  | .none => "None"
  | .bool b => if b then "True" else "False"
  | .int n => toString n
  | .float q => toString q
  | .str s => s
  | .list _ => "<list>"
  | .dict _ => "<dict>"

/-- Python `v == "lit"` against a string literal: `False` for every
non-string value, string comparison otherwise. -/
def pyEqStr (v : PyVal) (s : String) : Bool :=
  match v with
  | PyVal.str t => t == s
  | _ => false

/-- Python `for x in v` iteration: lists yield their items, strings
their one-character substrings, dicts their keys; everything else
raises `TypeError`. -/
def py_iter_items (v : PyVal) : Except String (List PyVal) :=
  match v with
  | PyVal.list xs => Except.ok xs
  | PyVal.str s => Except.ok (s.data.map (fun c => PyVal.str (String.mk [c])))
  | PyVal.dict es => Except.ok (es.map (fun kv => PyVal.str kv.1))
  | _ => Except.error "TypeError: object is not iterable"

/-- Python `v[0]`: head of a list or string; a string-keyed dict
raises `KeyError` for the integer key; scalars raise `TypeError`. -/
def py_subscript0 (v : PyVal) : Except String PyVal :=
  match v with
  | PyVal.list (x :: _) => Except.ok x
  | PyVal.list [] => Except.error "IndexError: list index out of range"
  | PyVal.str s =>
    match s.data with
    | c :: _ => Except.ok (PyVal.str (String.mk [c]))
    | [] => Except.error "IndexError: string index out of range"
  | PyVal.dict _ => Except.error "KeyError: 0"
  | _ => Except.error "TypeError: object is not subscriptable"

/-- Abbreviated model of `json.dumps` on the tool-call arguments
embedded in the transcript summary.  Every `PyVal` is a JSON value, so
serialization never raises; the rendered text feeds only the
abstracted judge prompt, so container contents are abbreviated. -/
def pyJsonDumps : PyVal → String
  | .none => "null"
  | .bool b => if b then "true" else "false"
  | .int n => toString n
  | .float q => toString q
  | .str s => "\"" ++ s ++ "\""
  | .list _ => "[...]"
  | .dict _ => "\x7b...\x7d"

/-- Sequential accumulation of per-element summary parts, stopping at
the first raised exception (a Python for-loop appending to a list). -/
def collect_parts (f : PyVal → Except String (List String)) :
    List PyVal → Except String (List String)
  | [] => Except.ok []
  | x :: xs =>
    match f x with
    | Except.error e => Except.error e
    | Except.ok p =>
      match collect_parts f xs with
      | Except.error e => Except.error e
      | Except.ok ps => Except.ok (p ++ ps)

/-! ## src/scripts/lib_agent.py -/

/-- The status classification shared by `execute_openclaw_task`
(src/scripts/lib_agent.py lines 413-421) and `run_openclaw_prompt`
(lines 489-497), applied to the fields gathered by the surrounding
function: the timeout flag, the loaded transcript, the subprocess exit
code (`-1` when no subprocess result was obtained) and captured
stderr. -/
def execution_status (timed_out : Bool) (transcript : List PyVal)
    (exit_code : Int) (stderr : String) : String :=
  let s1 := "success"
  let s2 := if timed_out then "timeout" else s1
  let s3 := if transcript.isEmpty then "error" else s2
  let s4 := if !(exit_code == 0 || exit_code == -1) && !timed_out then "error" else s3
  if !(stderr == "") && substr_in "openclaw command not found".data stderr.data then "error"
  else s4

/-- The per-line loop of `_load_transcript` (src/scripts/lib_agent.py
lines 312-321), applied to the `splitlines()` of the resolved
transcript file.  `J` abstracts `json.loads`; a failed parse is
retained as a dict carrying the raw line and the error text. -/
def load_transcript_lines (J : String → Except String PyVal) : List String → List PyVal
  | [] => []
  | line :: rest =>
    if (trimChars line.data).isEmpty then load_transcript_lines J rest
    else
      (match J line with
       | .ok v => v
       | .error e => PyVal.dict [("raw", PyVal.str line), ("parse_error", PyVal.str e)]) ::
      load_transcript_lines J rest

/-- One probe of the preferred-key loop of
`_resolve_session_id_from_store` (src/scripts/lib_agent.py lines
210-213): the entry at `key`, when it is a dict with a truthy
`sessionId`, yields that `sessionId` value. -/
def preferred_probe (entries : List (String × PyVal)) (key : String) : Option PyVal :=
  match dictGet entries key with
  | some (PyVal.dict e) =>
    if (pyGet e "sessionId" PyVal.none).truthy then some (pyGet e "sessionId" PyVal.none)
    else Option.none
  | _ => Option.none

/-- The preferred-key loop of `_resolve_session_id_from_store`
(src/scripts/lib_agent.py lines 206-213): probe `agent:<id>:main`,
then `agent:<id>:default`. -/
def preferred_session (agent_id : String) (entries : List (String × PyVal)) : Option PyVal :=
  ["agent:" ++ agent_id ++ ":main", "agent:" ++ agent_id ++ ":default"].findSome?
    (preferred_probe entries)

/-- One step of the newest-entry fold of `_resolve_session_id_from_store`
(src/scripts/lib_agent.py lines 215-225): skip non-dict entries and
entries without a `sessionId` key; keep the entry whose numeric
`updatedAt` strictly exceeds the best timestamp so far. -/
def newest_step (acc : Option (List (String × PyVal)) × ℚ) (entry : PyVal) :
    Option (List (String × PyVal)) × ℚ :=
  match entry with
  | PyVal.dict e =>
    if (dictGet e "sessionId").isNone then acc
    else
      match (pyGet e "updatedAt" PyVal.none).toQ with
      | some t => if t > acc.2 then (some e, t) else acc
      | Option.none => acc
  | _ => acc

/-- The fold over `sessions_payload.values()` with the source's initial
state `newest_entry = None`, `newest_timestamp = -1`. -/
def newest_session_entry (entries : List (String × PyVal)) :
    Option (List (String × PyVal)) × ℚ :=
  entries.foldl (fun acc kv => newest_step acc kv.2) (Option.none, -1)

/-- `_resolve_session_id_from_store` (src/scripts/lib_agent.py lines
193-228) applied to the decoded `sessions.json` payload.  The
filesystem read and JSON decode are performed by the caller; a missing
or malformed store and a non-dict payload all return Python `None`,
embedded as `PyVal.none`. -/
def resolve_session_id_from_store (agent_id : String) (payload : PyVal) : PyVal :=
  match payload with
  | PyVal.dict entries =>
    match preferred_session agent_id entries with
    | some sid => sid
    | Option.none =>
      match (newest_session_entry entries).1 with
      | some e =>
        if (PyVal.dict e).truthy then pyGet e "sessionId" PyVal.none else PyVal.none
      | Option.none => PyVal.none
  | _ => PyVal.none

/-! ## src/scripts/lib_grading.py -/

/-- `GradeResult` (src/scripts/lib_grading.py lines 26-43), with the
float score as an exact rational and the breakdown dict as an
association list. -/
structure GradeResult where
  task_id : String
  score : ℚ
  max_score : ℚ
  grading_type : String
  breakdown : List (String × ℚ)
  notes : String
  deriving DecidableEq

/-- `_average_scores` (src/scripts/lib_grading.py lines 197-201): the
mean of the values that are `int`/`float` instances (which, in Python,
includes booleans), or `0.0` when there are none. -/
def average_scores (scores : List (String × PyVal)) : ℚ :=
  let values := scores.filterMap (fun kv => if kv.2.isNumber then kv.2.toQ else Option.none)
  if values = [] then 0 else values.sum / values.length

/-- `_normalize_score_dict` (src/scripts/lib_grading.py lines
204-211): keep the entries whose values survive `float(·)` (numbers
and numeric strings), dropping the rest. -/
def normalize_score_dict (scores : List (String × PyVal)) : List (String × ℚ) :=
  scores.filterMap (fun kv => (pyFloat kv.2).map (fun q => (kv.1, q)))

/-- The outcome of extracting and loading the task's automated grading
callable (src/scripts/lib_grading.py lines 82-104).  `absent` models
`_extract_grading_code` finding no fenced python block; `execError e`
models `exec(grading_code, namespace)` itself raising (line 94);
`notCallable` models `exec` leaving no callable named `grade` in the
namespace; `callable g` abstracts the dynamically executed
`grade(transcript, workspace)` callable, whose call may itself raise
(line 106), modelled by `Except.error`. -/
inductive GradingSource where
  | absent
  | execError (e : String)
  | notCallable
  | callable (grade : PyVal → PyVal → Except String PyVal)

/-- The mapping the automated path feeds to scoring when the callable
returns: its return value when that is a dict, else `{}` (lines
106-111); `[]` in the early-return and raising branches. -/
def auto_scores (src : GradingSource) (transcript workspace : PyVal) :
    List (String × PyVal) :=
  match src with
  | .callable g =>
    match g transcript workspace with
    | Except.ok (PyVal.dict es) => es
    | _ => []
  | _ => []

/-- `_grade_automated` (src/scripts/lib_grading.py lines 81-121).
A raising `exec` or a raising `grade(...)` call propagates to the
caller as `Except.error`, exactly as the source's uncaught
exceptions do. -/
def grade_automated (taskId : String) (src : GradingSource)
    (transcript workspace : PyVal) : Except String GradeResult :=
  match src with
  | .absent =>
    Except.ok { task_id := taskId, score := 0, max_score := 1, grading_type := "automated",
                breakdown := [], notes := "No automated grading code found" }
  | .execError e => Except.error e
  | .notCallable =>
    Except.ok { task_id := taskId, score := 0, max_score := 1, grading_type := "automated",
                breakdown := [], notes := "Automated grading function missing" }
  | .callable g =>
    match g transcript workspace with
    | Except.error e => Except.error e
    | Except.ok v =>
      let scores := match v with
        | PyVal.dict es => es
        | _ => []
      Except.ok { task_id := taskId, score := average_scores scores, max_score := 1,
                  grading_type := "automated", breakdown := normalize_score_dict scores,
                  notes := "" }

/-! ### Judge-response parsing (src/scripts/lib_grading.py lines 272-336) -/

/-- One event's contribution to the assistant text chunks of
`_parse_judge_response` (lines 274-282).  A non-dict event or message
raises (`.get` on a non-mapping), non-iterable content raises, a
non-dict item raises, and a non-string `text` payload is modelled as
raising at the point it would poison the later `"\n".join` (the
source completes the loop first, but raises on the same inputs). -/
def judge_chunk_of_event (event : PyVal) : Except String (List String) :=
  match event with
  | PyVal.dict ev =>
    if pyEqStr (pyGet ev "type" PyVal.none) "message" then
      match pyGet ev "message" (PyVal.dict []) with
      | PyVal.dict msg =>
        if pyEqStr (pyGet msg "role" PyVal.none) "assistant" then
          match py_iter_items (pyGet msg "content" (PyVal.list [])) with
          | Except.error e => Except.error e
          | Except.ok items =>
            collect_parts (fun item =>
              match item with
              | PyVal.dict it =>
                if pyEqStr (pyGet it "type" PyVal.none) "text" then
                  match pyGet it "text" (PyVal.str "") with
                  | PyVal.str s => Except.ok [s]
                  | _ => Except.error "TypeError: sequence item: expected str instance"
                else Except.ok []
              | _ => Except.error "AttributeError: get") items
        else Except.ok []
      | _ => Except.error "AttributeError: get"
    else Except.ok []
  | _ => Except.error "AttributeError: get"

/-- The assistant text chunks collected by `_parse_judge_response`
(lines 273-282), or the exception the source would raise on an
off-schema transcript. -/
def judge_content_chunks (transcript : List PyVal) : Except String (List String) :=
  collect_parts judge_chunk_of_event transcript

/-- `"\n".join(chunks)` on character lists. -/
def join_with_newline : List String → List Char
  | [] => []
  | [s] => s.data
  | s :: rest => s.data ++ '\n' :: join_with_newline rest

/-- The `raw_text` of `_parse_judge_response` (line 283): joined
assistant text, stripped; raises as chunk collection does. -/
def judge_raw_text (transcript : List PyVal) : Except String String :=
  (judge_content_chunks transcript).map
    (fun chunks => String.mk (trimChars (join_with_newline chunks)))

/-- The suffix of `l` following the first occurrence of `pat`, if any. -/
def findSubstrSuffix (pat : List Char) : List Char → Option (List Char)
  | [] => if pat = [] then some [] else Option.none
  | c :: cs =>
    if pat.isPrefixOf (c :: cs) then some ((c :: cs).drop pat.length)
    else findSubstrSuffix pat cs

/-- The characters of `l` strictly before the first occurrence of
`pat`, or `Option.none` when `pat` never occurs. -/
def takeUntilSubstr (pat : List Char) : List Char → Option (List Char)
  | [] => if pat = [] then some [] else Option.none
  | c :: cs =>
    if pat.isPrefixOf (c :: cs) then some []
    else (takeUntilSubstr pat cs).map (fun r => c :: r)

/-- The fenced-block extraction
`re.search(r"\x60\x60\x60json\s*(.*?)\s*\x60\x60\x60", raw_text, re.DOTALL)`
(line 288): the stripped text between the first occurrence of
"\x60\x60\x60json" and the next "\x60\x60\x60" after it, when both exist. -/
def find_json_code_block (s : String) : Option String :=
  (findSubstrSuffix "```json".data s.data).bind (fun rest =>
    (takeUntilSubstr "```".data rest).map (fun content => String.mk (trimChars content)))

/-- An opening brace character, written via its code point. -/
def lbrace : Char := Char.ofNat 123

/-- A closing brace character, written via its code point. -/
def rbrace : Char := Char.ofNat 125

/-- One character step of the balanced-brace candidate scan
(src/scripts/lib_grading.py lines 299-314): state is (brace depth,
current chunk, collected candidates). -/
def brace_scan_step (st : Int × List Char × List String) (c : Char) :
    Int × List Char × List String :=
  let depth := st.1
  let cur := st.2.1
  let cands := st.2.2
  let depth' := if c = lbrace then depth + 1 else depth
  let cur' := if c = lbrace ∧ depth = 0 then [] else cur
  let cur'' := if depth' > 0 then cur' ++ [c] else cur'
  if c = rbrace then
    if depth' - 1 = 0 ∧ cur'' ≠ [] then (depth' - 1, cur'', cands ++ [String.mk cur''])
    else (depth' - 1, cur'', cands)
  else (depth', cur'', cands)

/-- The balanced-brace JSON candidates of `raw_text`, in order of
appearance (lines 299-314). -/
def json_candidates (raw_text : String) : List String :=
  (raw_text.data.foldl brace_scan_step (0, [], [])).2.2

/-- The first loop over `reversed(json_candidates)` (lines 317-324):
the first candidate that parses as a dict containing a `scores` key. -/
def find_scores_dict (J : String → Except String PyVal) :
    List String → Option (List (String × PyVal))
  | [] => Option.none
  | c :: rest =>
    match J c with
    | .ok (PyVal.dict es) =>
      if (dictGet es "scores").isSome then some es else find_scores_dict J rest
    | _ => find_scores_dict J rest

/-- The second loop over `reversed(json_candidates)` (lines 327-333):
the first candidate that parses as any dict. -/
def find_any_dict (J : String → Except String PyVal) :
    List String → Option (List (String × PyVal))
  | [] => Option.none
  | c :: rest =>
    match J c with
    | .ok (PyVal.dict es) => some es
    | _ => find_any_dict J rest

/-- `_parse_judge_response` from the stripped raw text onward
(src/scripts/lib_grading.py lines 284-336).  `J` abstracts
`json.loads`; a non-dict parse of the fenced block falls through to
the candidate scan exactly as in the source. -/
def parse_judge_text (J : String → Except String PyVal) (raw_text : String) :
    List (String × PyVal) :=
  if raw_text = "" then []
  else
    let viaCandidates : List (String × PyVal) :=
      match find_scores_dict J (json_candidates raw_text).reverse with
      | some es => es
      | Option.none =>
        match find_any_dict J (json_candidates raw_text).reverse with
        | some es => es
        | Option.none => []
    match find_json_code_block raw_text with
    | some inner =>
      match J inner with
      | .ok (PyVal.dict es) => es
      | _ => viaCandidates
    | Option.none => viaCandidates

/-- `_parse_judge_response` (src/scripts/lib_grading.py lines 272-336)
on a judge transcript: raw-text extraction (which can raise on an
off-schema transcript) followed by the pure text-parsing layers. -/
def parse_judge_response (J : String → Except String PyVal)
    (transcript : List PyVal) : Except String (List (String × PyVal)) :=
  (judge_raw_text transcript).map (parse_judge_text J)

/-- One event's contribution to `_summarize_transcript`
(src/scripts/lib_grading.py lines 220-242): tool calls of assistant
messages, truncated tool-result previews, first user content item.
`.get` on a non-mapping event/message/item, iterating non-iterable
assistant content and subscripting non-subscriptable toolResult/user
content raise, as in the source. -/
def summarize_event (event : PyVal) : Except String (List String) :=
  match event with
  | PyVal.dict ev =>
    if pyEqStr (pyGet ev "type" PyVal.none) "message" then
      match pyGet ev "message" (PyVal.dict []) with
      | PyVal.dict msg =>
        let role := pyGet msg "role" PyVal.none
        if pyEqStr role "assistant" then
          match py_iter_items (pyGet msg "content" (PyVal.list [])) with
          | Except.error e => Except.error e
          | Except.ok items =>
            collect_parts (fun item =>
              match item with
              | PyVal.dict it =>
                if pyEqStr (pyGet it "type" PyVal.none) "toolCall" then
                  Except.ok ["Tool: " ++ pyStr (pyGet it "name" PyVal.none) ++ "(" ++
                             pyJsonDumps (pyGet it "arguments" (PyVal.dict [])) ++ ")"]
                else Except.ok []
              | _ => Except.error "AttributeError: get") items
        else if pyEqStr role "toolResult" then
          let content := pyGet msg "content" (PyVal.list [])
          if content.truthy then
            match py_subscript0 content with
            | Except.error e => Except.error e
            | Except.ok x =>
              Except.ok ["Result: " ++ String.mk ((pyStr x).data.take 200)]
          else Except.ok []
        else if pyEqStr role "user" then
          let content := pyGet msg "content" (PyVal.list [])
          if content.truthy then
            match py_subscript0 content with
            | Except.error e => Except.error e
            | Except.ok x => Except.ok ["User: " ++ pyStr x]
          else Except.ok []
        else Except.ok []
      | _ => Except.error "AttributeError: get"
    else Except.ok []
  | _ => Except.error "AttributeError: get"

/-- `_summarize_transcript` (src/scripts/lib_grading.py lines 220-242)
on the execution result's transcript value.  Its summary text feeds
only the judge prompt, which this embedding abstracts together with
the judge invocation; what matters downstream is whether it raises. -/
def summarize_transcript (transcript : PyVal) : Except String String :=
  match py_iter_items transcript with
  | Except.error e => Except.error e
  | Except.ok events =>
    (collect_parts summarize_event events).map
      (fun parts => String.mk (join_with_newline parts))

/-! ### Judge grading and combination -/

/-- `_average_scores` as called on the raw `scores` value of a parsed
judge response (line 151): Python raises (`AttributeError`) when the
value is not a mapping. -/
def py_average_scores (v : PyVal) : Except String ℚ :=
  match v with
  | PyVal.dict es => Except.ok (average_scores es)
  | _ => Except.error "judge scores value is not a mapping"

/-- `_normalize_score_dict` on the raw `scores` value (line 157):
raises when the value is not a mapping. -/
def py_normalize_score_dict (v : PyVal) : Except String (List (String × ℚ)) :=
  match v with
  | PyVal.dict es => Except.ok (normalize_score_dict es)
  | _ => Except.error "judge scores value is not a mapping"

/-- The post-parsing stage of `_grade_llm_judge`
(src/scripts/lib_grading.py lines 146-159), from the parsed judge
response to the GradeResult.  Errors model the exceptions Python would
raise: `float()` on a non-numeric total, `.values()`/`.items()` on a
non-mapping `scores`.  A `None` notes value yields the empty string
per the `str(notes) if notes is not None else ""` guard (line 158). -/
def judge_grade_of_parsed (taskId : String) (parsed : List (String × PyVal)) :
    Except String GradeResult :=
  let breakdown := pyGet parsed "scores" (PyVal.dict [])
  let total0 := pyGet parsed "total" PyVal.none
  let notes := pyGet parsed "notes" (PyVal.str "")
  match (match total0 with
         | PyVal.none => (py_average_scores breakdown).map PyVal.float
         | t => Except.ok t) with
  | Except.error e => Except.error e
  | Except.ok total =>
    match pyFloat total with
    | Option.none => Except.error "float() argument is not a number or numeric string"
    | some score =>
      match py_normalize_score_dict breakdown with
      | Except.error e => Except.error e
      | Except.ok nbd =>
        Except.ok { task_id := taskId, score := score, max_score := 1,
                    grading_type := "llm_judge", breakdown := nbd,
                    notes := match notes with
                             | PyVal.none => ""
                             | v => pyStr v }

/-- `_grade_llm_judge` (src/scripts/lib_grading.py lines 124-159).
The transcript summary is computed first (line 133) and can raise on
an off-schema execution transcript; prompt construction, judge-agent
setup and the judge subprocess (lines 134-144) are abstracted into the
`judge_transcript` argument; `J` abstracts `json.loads`.  Response
parsing can raise during chunk extraction; the remaining stage is
`judge_grade_of_parsed`. -/
def grade_llm_judge (J : String → Except String PyVal) (taskId : String)
    (transcript : PyVal) (judge_transcript : List PyVal) : Except String GradeResult :=
  match summarize_transcript transcript with
  | Except.error e => Except.error e
  | Except.ok _ =>
    match parse_judge_response J judge_transcript with
    | Except.error e => Except.error e
    | Except.ok parsed => judge_grade_of_parsed taskId parsed

/-- `_combine_grades` (src/scripts/lib_grading.py lines 162-185).
`grading_weights` values are rationals per the source's
`Optional[Dict[str, float]]` annotation, making the source's
`float(·)` coercions the identity; a `some []` models the falsy empty
dict, which `or` replaces with the default. -/
def combine_grades (taskId : String) (grading_weights : Option (List (String × ℚ)))
    (auto_result llm_result : GradeResult) : GradeResult :=
  let dfl : List (String × ℚ) := [("automated", 1/2), ("llm_judge", 1/2)]
  let weights :=
    match grading_weights with
    | some ws => if ws = [] then dfl else ws
    | Option.none => dfl
  let auto_weight := ((weights.find? (fun kv => kv.1 == "automated")).map
    (fun kv => kv.2)).getD (1/2)
  let llm_weight := ((weights.find? (fun kv => kv.1 == "llm_judge")).map
    (fun kv => kv.2)).getD (1/2)
  let total_weight := auto_weight + llm_weight
  let resolved : ℚ × ℚ × ℚ :=
    if total_weight ≤ 0 then (1/2, 1/2, 1) else (auto_weight, llm_weight, total_weight)
  let combined_score :=
    (auto_result.score * resolved.1 + llm_result.score * resolved.2.1) / resolved.2.2
  { task_id := taskId, score := combined_score, max_score := 1, grading_type := "hybrid",
    breakdown :=
      (auto_result.breakdown.map (fun kv => ("automated." ++ kv.1, kv.2))) ++
      (llm_result.breakdown.map (fun kv => ("llm_judge." ++ kv.1, kv.2))),
    notes :=
      String.intercalate " | "
        (([auto_result.notes, llm_result.notes]).filter (fun s => s ≠ "")) }

/-- `grade_task` (src/scripts/lib_grading.py lines 46-78), dispatching
on the task's `grading_type`.  The unknown-type branch models the
source's `raise ValueError(...)`. -/
def grade_task (J : String → Except String PyVal) (taskId grading_type : String)
    (grading_weights : Option (List (String × ℚ))) (src : GradingSource)
    (transcript workspace : PyVal) (judge_transcript : List PyVal) :
    Except String GradeResult :=
  if grading_type = "automated" then
    grade_automated taskId src transcript workspace
  else if grading_type = "llm_judge" then
    grade_llm_judge J taskId transcript judge_transcript
  else if grading_type = "hybrid" then
    match grade_automated taskId src transcript workspace with
    | Except.error e => Except.error e
    | Except.ok auto_result =>
      match grade_llm_judge J taskId transcript judge_transcript with
      | Except.error e => Except.error e
      | Except.ok llm_result =>
        Except.ok (combine_grades taskId grading_weights auto_result llm_result)
  else Except.error ("Unknown grading type: " ++ grading_type)

/-! ## Theorems -/

/-- C1 (counterexample): a timed-out run whose resolved transcript is
empty is classified "error", not "timeout" — the empty-transcript rule
at line 416 overrides the timeout rule at line 414, so the claim "for
timed_out = true the status is timeout regardless of transcript
contents (including an empty transcript)" fails. -/
theorem C1_counterexample :
    execution_status true [] 0 "" = "error" ∧
    execution_status true [] 0 "" ≠ "timeout" := by
  constructor
  · rfl
  · decide

/-- C1 (amended): for every execution result with timed_out = true,
the status is "timeout" regardless of the exit code, provided the
resolved transcript is non-empty and stderr does not contain the
"openclaw command not found" marker. -/
theorem C1_timeout_status (transcript : List PyVal) (exit_code : Int) (stderr : String)
    (htr : transcript ≠ [])
    (hns : substr_in "openclaw command not found".data stderr.data = false) :
    execution_status true transcript exit_code stderr = "timeout" := by
  unfold execution_status
  simp [htr, hns]

/-- C1 (witness): the amended theorem applied at a concrete timed-out
run with a non-empty transcript and a non-zero exit code. -/
theorem C1_witness :
    execution_status true [PyVal.int 1] 5 "boom" = "timeout" :=
  C1_timeout_status [PyVal.int 1] 5 "boom" (List.cons_ne_nil _ _) (by decide)

/-- C7: for every execution result with an empty resolved transcript
and timed_out = false, the status is "error", for every exit code
(including 0) and every stderr. -/
theorem C7_empty_transcript_error (exit_code : Int) (stderr : String) :
    execution_status false [] exit_code stderr = "error" := by
  unfold execution_status
  simp

/-- C8: the loaded transcript is, in file order, exactly one event per
non-blank line — a parsed value for lines the JSON decoder accepts and
a dict carrying the raw line and the parse error for lines it rejects —
so its length equals the number of non-blank lines and malformed lines
are never dropped. -/
theorem C8_transcript_lines (J : String → Except String PyVal) (lines : List String) :
    load_transcript_lines J lines =
      (lines.filter (fun l => !(trimChars l.data).isEmpty)).map (fun l =>
        match J l with
        | .ok v => v
        | .error e => PyVal.dict [("raw", PyVal.str l), ("parse_error", PyVal.str e)]) ∧
    (load_transcript_lines J lines).length =
      (lines.filter (fun l => !(trimChars l.data).isEmpty)).length := by
  have hmap : load_transcript_lines J lines =
      (lines.filter (fun l => !(trimChars l.data).isEmpty)).map (fun l =>
        match J l with
        | .ok v => v
        | .error e => PyVal.dict [("raw", PyVal.str l), ("parse_error", PyVal.str e)]) := by
    induction lines with
    | nil => rfl
    | cons l rest ih =>
      by_cases h : (trimChars l.data).isEmpty
      · simp [load_transcript_lines, List.filter_cons, h, ih]
      · simp [load_transcript_lines, List.filter_cons, h, ih]
  exact ⟨hmap, by rw [hmap]; simp⟩

/-- An entry's eligibility for the newest-entry fallback: it must be a
dict with a `sessionId` key and a numeric `updatedAt`; the value is
that timestamp. -/
def elig_time (v : PyVal) : Option ℚ :=
  match v with
  | PyVal.dict e =>
    if (dictGet e "sessionId").isNone then Option.none
    else (pyGet e "updatedAt" PyVal.none).toQ
  | _ => Option.none

lemma newest_step_of_not_elig (acc : Option (List (String × PyVal)) × ℚ) (v : PyVal)
    (h : elig_time v = Option.none) : newest_step acc v = acc := by
  cases v with
  | dict e =>
    unfold elig_time at h
    unfold newest_step
    by_cases hs : (dictGet e "sessionId").isNone
    · simp [hs]
    · simp [hs] at h ⊢
      rw [h]
  | _ => rfl

lemma newest_step_of_elig (acc : Option (List (String × PyVal)) × ℚ)
    (e : List (String × PyVal)) (t : ℚ) (h : elig_time (PyVal.dict e) = some t) :
    newest_step acc (PyVal.dict e) = if t > acc.2 then (some e, t) else acc := by
  unfold elig_time at h
  unfold newest_step
  by_cases hs : (dictGet e "sessionId").isNone
  · simp [hs] at h
  · simp [hs] at h ⊢
    rw [h]

lemma newest_fold_skip (l : List (String × PyVal))
    (a : Option (List (String × PyVal))) (t₀ : ℚ)
    (h : ∀ kv ∈ l, ∀ t, elig_time kv.2 = some t → t ≤ t₀) :
    l.foldl (fun acc kv => newest_step acc kv.2) (a, t₀) = (a, t₀) := by
  induction l with
  | nil => rfl
  | cons kv rest ih =>
    have hstep : newest_step (a, t₀) kv.2 = (a, t₀) := by
      cases he : elig_time kv.2 with
      | none => exact newest_step_of_not_elig _ _ he
      | some t =>
        obtain ⟨e, hke⟩ : ∃ e, kv.2 = PyVal.dict e := by
          cases hv : kv.2 <;> simp [hv, elig_time] at he ⊢
        rw [hke] at he ⊢
        rw [newest_step_of_elig _ _ _ he]
        have : t ≤ t₀ := h kv (List.mem_cons_self _ _) t (by rw [hke]; exact he)
        simp [not_lt.mpr this]
    simpa [List.foldl_cons, hstep] using
      ih (fun kv' hkv' t ht => h kv' (List.mem_cons_of_mem _ hkv') t ht)

lemma newest_fold_lt (l : List (String × PyVal))
    (a : Option (List (String × PyVal))) (t₀ T : ℚ) (h0 : t₀ < T)
    (h : ∀ kv ∈ l, ∀ t, elig_time kv.2 = some t → t < T) :
    (l.foldl (fun acc kv => newest_step acc kv.2) (a, t₀)).2 < T := by
  induction l generalizing a t₀ with
  | nil => exact h0
  | cons kv rest ih =>
    have hrest : ∀ kv' ∈ rest, ∀ t, elig_time kv'.2 = some t → t < T :=
      fun kv' hkv' t ht => h kv' (List.mem_cons_of_mem _ hkv') t ht
    cases he : elig_time kv.2 with
    | none =>
      rw [List.foldl_cons, newest_step_of_not_elig _ _ he]
      exact ih a t₀ h0 hrest
    | some t =>
      obtain ⟨e, hke⟩ : ∃ e, kv.2 = PyVal.dict e := by
        cases hv : kv.2 <;> simp [hv, elig_time] at he ⊢
      rw [List.foldl_cons, hke, newest_step_of_elig _ _ _ (hke ▸ he)]
      have htT : t < T := h kv (List.mem_cons_self _ _) t he
      by_cases hgt : t > t₀
      · simp only [hgt, if_pos]
        exact ih (some e) t htT hrest
      · simp only [hgt, if_neg, not_false_iff]
        exact ih a t₀ h0 hrest

lemma elig_sessionId_isSome (e : List (String × PyVal)) (t : ℚ)
    (h : elig_time (PyVal.dict e) = some t) : (dictGet e "sessionId").isSome := by
  unfold elig_time at h
  by_cases hs : (dictGet e "sessionId").isNone
  · simp [hs] at h
  · simpa [Option.isSome_iff_ne_none] using
      (fun hn => hs (by simp [hn, Option.isNone]))

/-- C9 (counterexample): when every eligible entry's numeric
`updatedAt` is at most -1, the fold's strict `> -1` sentinel keeps
`newest_entry = None` and the resolver returns None rather than the
session id of the greatest-`updatedAt` entry, so the claim's
unconditional greatest-timestamp assertion fails. -/
theorem C9_counterexample :
    resolve_session_id_from_store "a" (PyVal.dict
      [("k", PyVal.dict [("sessionId", PyVal.str "s"), ("updatedAt", PyVal.int (-2))])]) =
      PyVal.none ∧
    PyVal.none ≠ PyVal.str "s" :=
  ⟨rfl, fun h => nomatch h⟩

/-- C9 (amended): session-id resolution.  First: an entry at the
preferred key `agent:<id>:main` that is a dict with a truthy
`sessionId` wins.  Second: when the main-key probe misses, such an
entry at `agent:<id>:default` wins.  Third: with no preferred hit, the
session id of the entry with the greatest numeric `updatedAt` among
entries carrying a `sessionId` key is returned, provided that greatest
timestamp exceeds the fold's `-1` sentinel (true of any real clock
timestamp) — stated for the index split `l₁ ++ winner :: l₂` with
strictly smaller eligible timestamps before the winner and no greater
ones after it.  Fourth: when every eligible timestamp is at most `-1`
the resolver returns None, as the counterexample exhibits. -/
theorem C9_session_resolution :
    (∀ (A : String) (entries e : List (String × PyVal)) (v : PyVal),
      dictGet entries ("agent:" ++ A ++ ":main") = some (PyVal.dict e) →
      dictGet e "sessionId" = some v → v.truthy = true →
      resolve_session_id_from_store A (PyVal.dict entries) = v) ∧
    (∀ (A : String) (entries e : List (String × PyVal)) (v : PyVal),
      preferred_probe entries ("agent:" ++ A ++ ":main") = Option.none →
      dictGet entries ("agent:" ++ A ++ ":default") = some (PyVal.dict e) →
      dictGet e "sessionId" = some v → v.truthy = true →
      resolve_session_id_from_store A (PyVal.dict entries) = v) ∧
    (∀ (A k : String) (l₁ l₂ e : List (String × PyVal)) (t : ℚ),
      preferred_session A (l₁ ++ (k, PyVal.dict e) :: l₂) = Option.none →
      elig_time (PyVal.dict e) = some t →
      (-1 : ℚ) < t →
      (∀ kv ∈ l₁, ∀ t', elig_time kv.2 = some t' → t' < t) →
      (∀ kv ∈ l₂, ∀ t', elig_time kv.2 = some t' → t' ≤ t) →
      resolve_session_id_from_store A (PyVal.dict (l₁ ++ (k, PyVal.dict e) :: l₂)) =
        pyGet e "sessionId" PyVal.none) ∧
    (∀ (A : String) (entries : List (String × PyVal)),
      preferred_session A entries = Option.none →
      (∀ kv ∈ entries, ∀ t, elig_time kv.2 = some t → t ≤ -1) →
      resolve_session_id_from_store A (PyVal.dict entries) = PyVal.none) := by
  refine ⟨?_, ?_, ?_, ?_⟩
  · intro A entries e v hmain hsid htr
    unfold resolve_session_id_from_store preferred_session preferred_probe
    have hget : pyGet e "sessionId" PyVal.none = v := by
      unfold pyGet
      rw [hsid]
    simp only [List.findSome?, hmain, hget, htr, if_pos]
  · intro A entries e v hm hdef hsid htr
    unfold resolve_session_id_from_store preferred_session
    have hget : pyGet e "sessionId" PyVal.none = v := by
      unfold pyGet
      rw [hsid]
    have hprobe : preferred_probe entries ("agent:" ++ A ++ ":default") = some v := by
      unfold preferred_probe
      simp only [hdef, hget, htr, if_pos]
    simp only [List.findSome?, hm, hprobe]
  · intro A k l₁ l₂ e t hpref he hneg h₁ h₂
    unfold resolve_session_id_from_store
    simp only [hpref]
    have hfold : newest_session_entry (l₁ ++ (k, PyVal.dict e) :: l₂) = (some e, t) := by
      unfold newest_session_entry
      rw [List.foldl_append, List.foldl_cons]
      have hacc2 : (l₁.foldl (fun acc kv => newest_step acc kv.2)
          ((Option.none : Option (List (String × PyVal))), (-1 : ℚ))).2 < t :=
        newest_fold_lt l₁ Option.none (-1) t hneg h₁
      obtain ⟨a₁, t₁, hp⟩ : ∃ a₁ t₁, l₁.foldl (fun acc kv => newest_step acc kv.2)
          ((Option.none : Option (List (String × PyVal))), (-1 : ℚ)) = (a₁, t₁) :=
        ⟨_, _, rfl⟩
      rw [hp] at hacc2 ⊢
      rw [newest_step_of_elig _ _ _ he]
      simp only [hacc2, if_pos]
      exact newest_fold_skip l₂ (some e) t (fun kv hkv t' ht' => h₂ kv hkv t' ht')
    simp only [hfold]
    have hne : e ≠ [] := by
      intro h0
      have := elig_sessionId_isSome e t he
      rw [h0] at this
      simp [dictGet] at this
    have hemp : e.isEmpty = false := by
      cases e
      · exact absurd rfl hne
      · rfl
    simp [PyVal.truthy, hemp]
  · intro A entries hpref hstale
    unfold resolve_session_id_from_store
    simp only [hpref]
    have hfold : newest_session_entry entries =
        ((Option.none : Option (List (String × PyVal))), (-1 : ℚ)) := by
      unfold newest_session_entry
      exact newest_fold_skip entries Option.none (-1) hstale
    simp only [hfold]

/-- C9 (witness): the greatest-timestamp conjunct applied to a
concrete two-entry index with no preferred-key match, where the second
entry's `updatedAt` (20) exceeds the first's (10): the second entry's
session id is returned. -/
theorem C9_witness :
    resolve_session_id_from_store "a" (PyVal.dict
      [ ("k1", PyVal.dict [("sessionId", PyVal.str "s1"), ("updatedAt", PyVal.int 10)]),
        ("k2", PyVal.dict [("sessionId", PyVal.str "s2"), ("updatedAt", PyVal.int 20)]) ]) =
      PyVal.str "s2" := by
  have h10 : elig_time (PyVal.dict
      [("sessionId", PyVal.str "s1"), ("updatedAt", PyVal.int 10)]) =
      some ((10 : Int) : ℚ) := rfl
  have h := C9_session_resolution.2.2.1 "a" "k2"
    [("k1", PyVal.dict [("sessionId", PyVal.str "s1"), ("updatedAt", PyVal.int 10)])] []
    [("sessionId", PyVal.str "s2"), ("updatedAt", PyVal.int 20)] ((20 : Int) : ℚ)
    rfl rfl (by norm_num)
    (by
      intro kv hkv t' ht'
      simp only [List.mem_singleton] at hkv
      subst hkv
      rw [h10] at ht'
      obtain rfl : ((10 : Int) : ℚ) = t' := Option.some.inj ht'
      norm_num)
    (by intro kv hkv; cases hkv)
  exact h

/-- All numeric values of a score mapping lie in [0, 1] (`toQ` is
`some` exactly on the values Python's `isinstance(v, (int, float))`
admits). -/
def NumericBounded (es : List (String × PyVal)) : Prop :=
  ∀ kv ∈ es, ∀ q, kv.2.toQ = some q → 0 ≤ q ∧ q ≤ 1

lemma list_sum_le_length (xs : List ℚ) (h : ∀ x ∈ xs, x ≤ 1) : xs.sum ≤ xs.length := by
  induction xs with
  | nil => simp
  | cons x rest ih =>
    simp only [List.sum_cons, List.length_cons]
    have hx := h x (List.mem_cons_self _ _)
    have hr := ih (fun y hy => h y (List.mem_cons_of_mem _ hy))
    push_cast
    linarith

lemma average_scores_bounds (es : List (String × PyVal)) (h : NumericBounded es) :
    0 ≤ average_scores es ∧ average_scores es ≤ 1 := by
  unfold average_scores
  set values := es.filterMap (fun kv => if kv.2.isNumber then kv.2.toQ else Option.none)
    with hv
  have hmem : ∀ x ∈ values, 0 ≤ x ∧ x ≤ 1 := by
    intro x hx
    rw [hv] at hx
    obtain ⟨kv, hkv, hkx⟩ := List.mem_filterMap.mp hx
    by_cases hn : kv.2.isNumber
    · rw [if_pos hn] at hkx
      exact h kv hkv x hkx
    · rw [if_neg hn] at hkx
      cases hkx
  by_cases hnil : values = []
  · simp [hnil]
  · rw [if_neg hnil]
    have hlen : 0 < (values.length : ℚ) := by
      have hne : values.length ≠ 0 := fun h0 => hnil (List.length_eq_zero.mp h0)
      exact_mod_cast Nat.pos_of_ne_zero hne
    constructor
    · exact div_nonneg (List.sum_nonneg (fun x hx => (hmem x hx).1)) hlen.le
    · rw [div_le_one hlen]
      exact list_sum_le_length values (fun x hx => (hmem x hx).2)

lemma grade_automated_score_bounds (taskId : String) (src : GradingSource)
    (tr ws : PyVal) (r : GradeResult)
    (hok : grade_automated taskId src tr ws = Except.ok r)
    (h : NumericBounded (auto_scores src tr ws)) :
    0 ≤ r.score ∧ r.score ≤ 1 ∧ r.max_score = 1 := by
  cases src with
  | absent =>
    obtain rfl := Except.ok.inj hok
    exact ⟨le_refl _, (by norm_num : (0 : ℚ) ≤ 1), rfl⟩
  | execError e => cases hok
  | notCallable =>
    obtain rfl := Except.ok.inj hok
    exact ⟨le_refl _, (by norm_num : (0 : ℚ) ≤ 1), rfl⟩
  | callable g =>
    unfold grade_automated at hok
    dsimp only at hok
    cases hg : g tr ws with
    | error e => rw [hg] at hok; cases hok
    | ok v =>
      rw [hg] at hok
      dsimp only at hok
      cases v
      case dict es =>
        obtain rfl := Except.ok.inj hok
        have hsc : auto_scores (GradingSource.callable g) tr ws = es := by
          unfold auto_scores
          dsimp only
          rw [hg]
        rw [hsc] at h
        have hb := average_scores_bounds _ h
        exact ⟨hb.1, hb.2, rfl⟩
      all_goals
        obtain rfl := Except.ok.inj hok
      all_goals
        exact ⟨le_refl _, (by norm_num : (0 : ℚ) ≤ 1), rfl⟩

lemma weighted_avg_bounds (a l aw lw : ℚ) (ha0 : 0 ≤ a) (ha1 : a ≤ 1) (hl0 : 0 ≤ l)
    (hl1 : l ≤ 1) (haw : 0 ≤ aw) (hlw : 0 ≤ lw) (hpos : 0 < aw + lw) :
    0 ≤ (a * aw + l * lw) / (aw + lw) ∧ (a * aw + l * lw) / (aw + lw) ≤ 1 := by
  constructor
  · exact div_nonneg (by nlinarith) hpos.le
  · rw [div_le_one hpos]
    nlinarith

lemma combine_grades_score_form (taskId : String) (w : Option (List (String × ℚ)))
    (a l : GradeResult) (hw : ∀ ws, w = some ws → ∀ kv ∈ ws, 0 ≤ kv.2) :
    ∃ aw lw : ℚ, 0 ≤ aw ∧ 0 ≤ lw ∧ 0 < aw + lw ∧
      (combine_grades taskId w a l).score = (a.score * aw + l.score * lw) / (aw + lw) := by
  unfold combine_grades
  dsimp only
  set dfl : List (String × ℚ) := [("automated", 1/2), ("llm_judge", 1/2)] with hdfl
  set weights := (match w with
    | some ws => if ws = [] then dfl else ws
    | Option.none => dfl) with hwts
  have hwnn : ∀ kv ∈ weights, 0 ≤ kv.2 := by
    intro kv hkv
    rw [hwts] at hkv
    cases w with
    | none =>
      dsimp only at hkv
      simp only [hdfl, List.mem_cons, List.mem_singleton, List.not_mem_nil, or_false] at hkv
      rcases hkv with rfl | rfl <;> norm_num
    | some ws =>
      dsimp only at hkv
      by_cases hws : ws = []
      · simp only [hws, if_pos, hdfl, List.mem_cons, List.mem_singleton, List.not_mem_nil,
          or_false] at hkv
        rcases hkv with rfl | rfl <;> norm_num
      · rw [if_neg hws] at hkv
        exact hw ws rfl kv hkv
  set aw0 := ((weights.find? (fun kv => kv.1 == "automated")).map (fun kv => kv.2)).getD (1/2)
    with haw0
  set lw0 := ((weights.find? (fun kv => kv.1 == "llm_judge")).map (fun kv => kv.2)).getD (1/2)
    with hlw0
  have haw0nn : 0 ≤ aw0 := by
    rw [haw0]
    cases hf : weights.find? (fun kv => kv.1 == "automated") with
    | none => norm_num
    | some kv => simpa using hwnn kv (List.mem_of_find?_eq_some hf)
  have hlw0nn : 0 ≤ lw0 := by
    rw [hlw0]
    cases hf : weights.find? (fun kv => kv.1 == "llm_judge") with
    | none => norm_num
    | some kv => simpa using hwnn kv (List.mem_of_find?_eq_some hf)
  by_cases htw : aw0 + lw0 ≤ 0
  · refine ⟨1/2, 1/2, by norm_num, by norm_num, by norm_num, ?_⟩
    simp only [htw, if_pos]
    norm_num
  · refine ⟨aw0, lw0, haw0nn, hlw0nn, lt_of_not_le htw, ?_⟩
    simp only [htw, if_neg, not_false_iff]

lemma combine_grades_score_bounds (taskId : String) (w : Option (List (String × ℚ)))
    (a l : GradeResult) (ha0 : 0 ≤ a.score) (ha1 : a.score ≤ 1) (hl0 : 0 ≤ l.score)
    (hl1 : l.score ≤ 1) (hw : ∀ ws, w = some ws → ∀ kv ∈ ws, 0 ≤ kv.2) :
    0 ≤ (combine_grades taskId w a l).score ∧ (combine_grades taskId w a l).score ≤ 1 := by
  obtain ⟨aw, lw, hawn, hlwn, hpos, hform⟩ := combine_grades_score_form taskId w a l hw
  rw [hform]
  exact weighted_avg_bounds _ _ _ _ ha0 ha1 hl0 hl1 hawn hlwn hpos

lemma judge_grade_of_parsed_cases (taskId : String) (parsed : List (String × PyVal))
    (r : GradeResult) (hok : judge_grade_of_parsed taskId parsed = Except.ok r) :
    r.max_score = 1 ∧
    ((pyGet parsed "total" PyVal.none = PyVal.none ∧
      ∃ es, pyGet parsed "scores" (PyVal.dict []) = PyVal.dict es ∧
        r.score = average_scores es) ∨
     pyFloat (pyGet parsed "total" PyVal.none) = some r.score) := by
  unfold judge_grade_of_parsed at hok
  dsimp only at hok
  cases ht : pyGet parsed "total" PyVal.none with
  | none =>
    rw [ht] at hok
    cases hb : pyGet parsed "scores" (PyVal.dict []) with
    | dict es =>
      rw [hb] at hok
      simp only [py_average_scores, py_normalize_score_dict, Except.map, pyFloat,
        Except.ok.injEq] at hok
      subst hok
      exact ⟨rfl, Or.inl ⟨rfl, es, rfl, rfl⟩⟩
    | _ =>
      rw [hb] at hok
      simp [py_average_scores, Except.map] at hok
  | _ =>
    rw [ht] at hok
    dsimp only at hok
    cases hf : pyFloat (pyGet parsed "total" PyVal.none)
    all_goals rw [ht] at hf; rw [hf] at hok
    · simp at hok
    · cases hb : pyGet parsed "scores" (PyVal.dict []) with
      | dict es =>
        rw [hb] at hok
        simp only [py_normalize_score_dict, Except.ok.injEq] at hok
        subst hok
        exact ⟨rfl, Or.inr hf⟩
      | _ =>
        rw [hb] at hok
        simp [py_normalize_score_dict] at hok

lemma grade_llm_judge_ok_cases (J : String → Except String PyVal) (taskId : String)
    (tr : PyVal) (jt : List PyVal) (r : GradeResult)
    (hok : grade_llm_judge J taskId tr jt = Except.ok r) :
    r.max_score = 1 ∧
    ∃ parsed, parse_judge_response J jt = Except.ok parsed ∧
      ((pyGet parsed "total" PyVal.none = PyVal.none ∧
        ∃ es, pyGet parsed "scores" (PyVal.dict []) = PyVal.dict es ∧
          r.score = average_scores es) ∨
       pyFloat (pyGet parsed "total" PyVal.none) = some r.score) := by
  unfold grade_llm_judge at hok
  cases hsum : summarize_transcript tr with
  | error e => rw [hsum] at hok; cases hok
  | ok summary =>
    rw [hsum] at hok
    dsimp only at hok
    cases hpr : parse_judge_response J jt with
    | error e => rw [hpr] at hok; cases hok
    | ok parsed =>
      rw [hpr] at hok
      dsimp only at hok
      obtain ⟨hmax, hcase⟩ := judge_grade_of_parsed_cases taskId parsed r hok
      exact ⟨hmax, parsed, rfl, hcase⟩

lemma grade_llm_judge_score_bounds (J : String → Except String PyVal) (taskId : String)
    (tr : PyVal) (jt : List PyVal) (r : GradeResult)
    (hok : grade_llm_judge J taskId tr jt = Except.ok r)
    (hjudge : ∀ parsed, parse_judge_response J jt = Except.ok parsed →
      (∀ q, pyFloat (pyGet parsed "total" PyVal.none) = some q → 0 ≤ q ∧ q ≤ 1) ∧
      (∀ es, pyGet parsed "scores" (PyVal.dict []) = PyVal.dict es → NumericBounded es)) :
    0 ≤ r.score ∧ r.score ≤ 1 := by
  obtain ⟨hmax, parsed, hpr, hcase⟩ := grade_llm_judge_ok_cases J taskId tr jt r hok
  obtain ⟨htotal, hscores⟩ := hjudge parsed hpr
  rcases hcase with ⟨ht, es, hes, hsc⟩ | hf
  · rw [hsc]
    exact average_scores_bounds es (hscores es hes)
  · exact htotal r.score hf

/-- C2 (counterexample): scores are never clamped — an automated
grading callable returning the mapping `{"a": 2.0}` yields a
GradeResult with score 2.0 and max_score 1.0, so the invariant
score ∈ [0, max_score] fails on well-formed (but out-of-range)
numeric input. -/
theorem C2_counterexample :
    grade_automated "t"
      (GradingSource.callable (fun _ _ => Except.ok (PyVal.dict [("a", PyVal.float 2)])))
      (PyVal.list []) (PyVal.str "") =
      Except.ok { task_id := "t", score := 2, max_score := 1, grading_type := "automated",
                  breakdown := [("a", 2)], notes := "" } ∧
    ¬ ((2 : ℚ) ≤ (1 : ℚ)) := by
  constructor
  · simp [grade_automated, average_scores, normalize_score_dict, pyFloat,
      PyVal.isNumber, PyVal.toQ]
  · norm_num

/-- C2 (amended): every GradeResult produced by grading has score in
[0, max_score], provided the numeric inputs themselves are in range:
every numeric value of the automated scoring mapping lies in [0, 1],
the judge response's float-coercible `total` (when present) lies in
[0, 1] and its `scores` values do too, and any configured hybrid
weights are non-negative.  Malformed inputs (non-numeric mapping
values, non-dict scoring results, unparsable judge text) still degrade
to 0.0, but out-of-range numeric values propagate unclamped — which is
what the counterexample exhibits. -/
theorem C2_score_in_range (J : String → Except String PyVal)
    (taskId gt : String) (w : Option (List (String × ℚ))) (src : GradingSource)
    (tr ws : PyVal) (jt : List PyVal) (r : GradeResult)
    (hok : grade_task J taskId gt w src tr ws jt = Except.ok r)
    (hauto : NumericBounded (auto_scores src tr ws))
    (hjudge : ∀ parsed, parse_judge_response J jt = Except.ok parsed →
      (∀ q, pyFloat (pyGet parsed "total" PyVal.none) = some q → 0 ≤ q ∧ q ≤ 1) ∧
      (∀ es, pyGet parsed "scores" (PyVal.dict []) = PyVal.dict es → NumericBounded es))
    (hw : ∀ ws', w = some ws' → ∀ kv ∈ ws', 0 ≤ kv.2) :
    0 ≤ r.score ∧ r.score ≤ r.max_score := by
  unfold grade_task at hok
  by_cases h1 : gt = "automated"
  · rw [if_pos h1] at hok
    obtain ⟨h0, h1', hm⟩ := grade_automated_score_bounds taskId src tr ws r hok hauto
    exact ⟨h0, by rw [hm]; exact h1'⟩
  · rw [if_neg h1] at hok
    by_cases h2 : gt = "llm_judge"
    · rw [if_pos h2] at hok
      have hmax := (grade_llm_judge_ok_cases J taskId tr jt r hok).1
      have hb := grade_llm_judge_score_bounds J taskId tr jt r hok hjudge
      exact ⟨hb.1, by rw [hmax]; exact hb.2⟩
    · rw [if_neg h2] at hok
      by_cases h3 : gt = "hybrid"
      · rw [if_pos h3] at hok
        cases ha : grade_automated taskId src tr ws with
        | error e => rw [ha] at hok; cases hok
        | ok auto_result =>
          rw [ha] at hok
          dsimp only at hok
          cases hll : grade_llm_judge J taskId tr jt with
          | error e => rw [hll] at hok; cases hok
          | ok llm =>
            rw [hll] at hok
            obtain rfl := Except.ok.inj hok
            obtain ⟨ha0, ha1, hm⟩ :=
              grade_automated_score_bounds taskId src tr ws auto_result ha hauto
            have hlb := grade_llm_judge_score_bounds J taskId tr jt llm hll hjudge
            have hc := combine_grades_score_bounds taskId w auto_result llm
              ha0 ha1 hlb.1 hlb.2 hw
            exact ⟨hc.1, hc.2⟩
      · rw [if_neg h3] at hok
        cases hok

/-- C2 (witness): the amended theorem applied to a concrete automated
run whose grading source is absent: the degraded score 0.0 lies in
[0, max_score]. -/
theorem C2_witness :
    0 ≤ ({ task_id := "t", score := 0, max_score := 1, grading_type := "automated",
           breakdown := [], notes := "No automated grading code found" } : GradeResult).score ∧
    ({ task_id := "t", score := 0, max_score := 1, grading_type := "automated",
       breakdown := [], notes := "No automated grading code found" } : GradeResult).score ≤
      ({ task_id := "t", score := 0, max_score := 1, grading_type := "automated",
         breakdown := [], notes := "No automated grading code found" } : GradeResult).max_score :=
  C2_score_in_range (fun _ => Except.error "e") "t" "automated" Option.none
    GradingSource.absent (PyVal.list []) (PyVal.str "") [] _ rfl
    (fun kv hkv _ _ => absurd hkv (List.not_mem_nil kv))
    (by
      intro parsed hp
      obtain rfl : ([] : List (String × PyVal)) = parsed := Except.ok.inj hp
      constructor
      · intro q hq
        cases hq
      · intro es hes
        injection hes with h
        subst h
        intro kv hkv
        exact absurd hkv (List.not_mem_nil kv))
    (fun ws' h => nomatch h)

/-- Whether a parsed judge response is one the judge grader can
consume without raising: its `scores` value is a mapping and its
`total` is either absent/None or float-coercible. -/
def judge_response_ok (parsed : List (String × PyVal)) : Prop :=
  (∃ es, pyGet parsed "scores" (PyVal.dict []) = PyVal.dict es) ∧
  (pyGet parsed "total" PyVal.none = PyVal.none ∨
   ∃ q, pyFloat (pyGet parsed "total" PyVal.none) = some q)

/-- Whether the task-supplied automated scoring stage completes
without raising on this input: the grading source loads without an
exec error and, when a callable is present, its call returns rather
than raises. -/
def grading_source_ok (src : GradingSource) (tr ws : PyVal) : Prop :=
  match src with
  | GradingSource.execError _ => False
  | GradingSource.callable g => ∃ v, g tr ws = Except.ok v
  | _ => True

lemma grade_automated_ok_exists (taskId : String) (src : GradingSource) (tr ws : PyVal)
    (h : grading_source_ok src tr ws) :
    ∃ r, grade_automated taskId src tr ws = Except.ok r := by
  cases src with
  | absent => exact ⟨_, rfl⟩
  | notCallable => exact ⟨_, rfl⟩
  | execError e => exact h.elim
  | callable g =>
    obtain ⟨v, hv⟩ := h
    unfold grade_automated
    dsimp only
    rw [hv]
    exact ⟨_, rfl⟩

lemma judge_grade_of_parsed_ok_exists (taskId : String) (parsed : List (String × PyVal))
    (h : judge_response_ok parsed) :
    ∃ r, judge_grade_of_parsed taskId parsed = Except.ok r := by
  obtain ⟨⟨es, hes⟩, htot⟩ := h
  unfold judge_grade_of_parsed
  dsimp only
  rcases htot with ht | ⟨q, hq⟩
  · rw [ht, hes]
    exact ⟨_, rfl⟩
  · cases ht0 : pyGet parsed "total" PyVal.none with
    | none =>
      rw [hes]
      exact ⟨_, rfl⟩
    | bool b => rw [ht0] at hq; dsimp only; rw [hq, hes]; exact ⟨_, rfl⟩
    | int n => rw [ht0] at hq; dsimp only; rw [hq, hes]; exact ⟨_, rfl⟩
    | float qq => rw [ht0] at hq; dsimp only; rw [hq, hes]; exact ⟨_, rfl⟩
    | str s2 => rw [ht0] at hq; dsimp only; rw [hq, hes]; exact ⟨_, rfl⟩
    | list xs => rw [ht0] at hq; simp [pyFloat] at hq
    | dict d => rw [ht0] at hq; simp [pyFloat] at hq

lemma grade_llm_judge_ok_exists (J : String → Except String PyVal) (taskId : String)
    (tr : PyVal) (jt : List PyVal) (summary : String) (parsed : List (String × PyVal))
    (hsum : summarize_transcript tr = Except.ok summary)
    (hpr : parse_judge_response J jt = Except.ok parsed)
    (h : judge_response_ok parsed) :
    ∃ r, grade_llm_judge J taskId tr jt = Except.ok r := by
  obtain ⟨r, hr⟩ := judge_grade_of_parsed_ok_exists taskId parsed h
  refine ⟨r, ?_⟩
  unfold grade_llm_judge
  rw [hsum]
  dsimp only
  rw [hpr]
  exact hr

/-- C3 (counterexample): `grade_task` raises (`ValueError`, modelled
as `Except.error`) for an unrecognized grading type, so "never raises
an exception to its caller" fails as stated for arbitrary tasks (the
exec'd scoring code and the judge path supply further raising inputs,
per the error constructors of the embedding). -/
theorem C3_counterexample :
    grade_task (fun _ => Except.error "e") "t" "bogus" Option.none GradingSource.absent
      (PyVal.list []) (PyVal.str "") [] =
      Except.error ("Unknown grading type: " ++ "bogus") := rfl

/-- C3 (amended): for every task whose grading type is one of the
three recognized modes, and whose raising stages are benign on this
input — the task-supplied scoring code loads and its `grade` callable
returns rather than raises, the execution transcript is summarizable,
judge-response chunk extraction succeeds, and the parsed judge
response is consumable (`scores` a mapping, `total` absent or
float-coercible) — `grade_task` returns a GradeResult; in particular,
when the automated grading source is missing or defines no callable
`grade`, it returns score 0.0 with an explanatory note.  For an
unknown grading type it raises `ValueError`, and a failure of any of
those stages propagates to the caller. -/
theorem C3_grade_total (J : String → Except String PyVal) (taskId gt : String)
    (w : Option (List (String × ℚ))) (src : GradingSource) (tr ws : PyVal)
    (jt : List PyVal) (summary : String) (parsed : List (String × PyVal))
    (hgt : gt = "automated" ∨ gt = "llm_judge" ∨ gt = "hybrid")
    (hsrc : grading_source_ok src tr ws)
    (hsum : summarize_transcript tr = Except.ok summary)
    (hpr : parse_judge_response J jt = Except.ok parsed)
    (hj : judge_response_ok parsed) :
    (∃ r, grade_task J taskId gt w src tr ws jt = Except.ok r) ∧
    grade_task J taskId "automated" w GradingSource.absent tr ws jt =
      Except.ok { task_id := taskId, score := 0, max_score := 1,
                  grading_type := "automated", breakdown := [],
                  notes := "No automated grading code found" } ∧
    grade_task J taskId "automated" w GradingSource.notCallable tr ws jt =
      Except.ok { task_id := taskId, score := 0, max_score := 1,
                  grading_type := "automated", breakdown := [],
                  notes := "Automated grading function missing" } := by
  refine ⟨?_, rfl, rfl⟩
  rcases hgt with rfl | rfl | rfl
  · obtain ⟨r, hr⟩ := grade_automated_ok_exists taskId src tr ws hsrc
    exact ⟨r, by unfold grade_task; rw [if_pos rfl]; exact hr⟩
  · obtain ⟨r, hr⟩ := grade_llm_judge_ok_exists J taskId tr jt summary parsed hsum hpr hj
    refine ⟨r, ?_⟩
    unfold grade_task
    rw [if_neg (by decide), if_pos rfl]
    exact hr
  · obtain ⟨ra, hra⟩ := grade_automated_ok_exists taskId src tr ws hsrc
    obtain ⟨rl, hrl⟩ := grade_llm_judge_ok_exists J taskId tr jt summary parsed hsum hpr hj
    refine ⟨combine_grades taskId w ra rl, ?_⟩
    unfold grade_task
    rw [if_neg (by decide), if_neg (by decide), if_pos rfl]
    rw [hra]
    dsimp only
    rw [hrl]

/-- C3 (witness): the amended theorem applied to a concrete automated
task with no grading source: grading returns a GradeResult. -/
theorem C3_witness :
    ∃ r, grade_task (fun _ => Except.error "e") "t" "automated" Option.none
      GradingSource.absent (PyVal.list []) (PyVal.str "") [] = Except.ok r :=
  (C3_grade_total (fun _ => Except.error "e") "t" "automated" Option.none
    GradingSource.absent (PyVal.list []) (PyVal.str "") [] "" []
    (Or.inl rfl) trivial rfl rfl ⟨⟨[], rfl⟩, Or.inl rfl⟩).1

lemma guard_toQ (v : PyVal) : (if v.isNumber then v.toQ else Option.none) = v.toQ := by
  cases v <;> rfl

lemma numeric_values_eq (es : List (String × PyVal)) :
    es.filterMap (fun kv => if kv.2.isNumber then kv.2.toQ else Option.none) =
      es.filterMap (fun kv => kv.2.toQ) := by
  simp only [guard_toQ]

/-- C4: the automated score equals the arithmetic mean of the numeric
values of the mapping returned by the task's scoring callable
(non-numeric values ignored), is 0.0 for an empty mapping and for a
mapping with no numeric values, and the mapping a ↦ 1.0, b ↦ 0.5
yields 0.75. -/
theorem C4_automated_mean :
    (∀ (taskId : String) (g : PyVal → PyVal → Except String PyVal) (tr ws : PyVal)
        (es : List (String × PyVal)), g tr ws = Except.ok (PyVal.dict es) →
      ∃ r, grade_automated taskId (GradingSource.callable g) tr ws = Except.ok r ∧
        r.score =
          (if es.filterMap (fun kv => kv.2.toQ) = [] then 0
           else (es.filterMap (fun kv => kv.2.toQ)).sum /
             ((es.filterMap (fun kv => kv.2.toQ)).length : ℚ))) ∧
    (∃ r, grade_automated "t" (GradingSource.callable
        (fun _ _ => Except.ok (PyVal.dict [("a", PyVal.float 1), ("b", PyVal.float (1/2))])))
      (PyVal.list []) (PyVal.str "") = Except.ok r ∧ r.score = 3/4) ∧
    (∃ r, grade_automated "t" (GradingSource.callable (fun _ _ => Except.ok (PyVal.dict [])))
      (PyVal.list []) (PyVal.str "") = Except.ok r ∧ r.score = 0) ∧
    (∃ r, grade_automated "t" (GradingSource.callable
        (fun _ _ => Except.ok (PyVal.dict [("a", PyVal.str "great"), ("b", PyVal.none)])))
      (PyVal.list []) (PyVal.str "") = Except.ok r ∧ r.score = 0) := by
  refine ⟨?_, ⟨_, rfl, ?_⟩, ⟨_, rfl, rfl⟩, ⟨_, rfl, rfl⟩⟩
  · intro taskId g tr ws es hg
    unfold grade_automated
    dsimp only
    rw [hg]
    dsimp only
    refine ⟨_, rfl, ?_⟩
    simp only [average_scores, numeric_values_eq]
  · simp [average_scores, PyVal.isNumber, PyVal.toQ]
    norm_num

/-- C4 (witness): the mean-formula conjunct applied to the concrete
mapping a ↦ 1 (an int), giving score 1. -/
theorem C4_witness :
    ∃ r, grade_automated "t" (GradingSource.callable
      (fun _ _ => Except.ok (PyVal.dict [("a", PyVal.int 1)])))
      (PyVal.list []) (PyVal.str "") = Except.ok r ∧ r.score = 1 := by
  obtain ⟨r, hr, hs⟩ := C4_automated_mean.1 "t"
    (fun _ _ => Except.ok (PyVal.dict [("a", PyVal.int 1)]))
    (PyVal.list []) (PyVal.str "") [("a", PyVal.int 1)] rfl
  refine ⟨r, hr, ?_⟩
  rw [hs]
  simp [PyVal.toQ]

/-- C5 (counterexample): the claim resets the weights only when BOTH
resolved weights are non-positive, but the code resets whenever their
SUM is non-positive (lib_grading.py line 167).  At weights
automated = -2, llm_judge = 1 — not both non-positive — with scores
1 and 0, the code resets and yields (1 + 0)/2 = 0.5, while the claim's
normalized formula gives (1·(-2) + 0·1)/(-2 + 1) = 2. -/
theorem C5_counterexample :
    (combine_grades "t" (some [("automated", -2), ("llm_judge", 1)])
      { task_id := "t", score := 1, max_score := 1, grading_type := "automated",
        breakdown := [], notes := "" }
      { task_id := "t", score := 0, max_score := 1, grading_type := "llm_judge",
        breakdown := [], notes := "" }).score = 1/2 ∧
    ((1 : ℚ) * (-2) + (0 : ℚ) * 1) / (-2 + 1) = 2 ∧
    (1 : ℚ) / 2 ≠ 2 := by
  refine ⟨?_, by norm_num, by norm_num⟩
  simp [combine_grades, List.find?]

/-- C5 (amended): the hybrid score is the weight-normalized
combination (a·w_a + j·w_j)/(w_a + w_j) whenever the resolved weights
have positive sum; each weight defaults to 0.5 when the weights dict
is absent; both weights reset to 0.5 whenever the SUM of the resolved
weights is non-positive (not only when both are); and automated 0.8 at
weight 0.3 with judge 0.4 at weight 0.7 yields 0.52. -/
theorem C5_hybrid_combination :
    (∀ (taskId : String) (a l : GradeResult) (aw lw : ℚ), 0 < aw + lw →
      (combine_grades taskId (some [("automated", aw), ("llm_judge", lw)]) a l).score =
        (a.score * aw + l.score * lw) / (aw + lw)) ∧
    (∀ (taskId : String) (a l : GradeResult),
      (combine_grades taskId Option.none a l).score = (a.score + l.score) / 2) ∧
    (∀ (taskId : String) (a l : GradeResult) (aw lw : ℚ), aw + lw ≤ 0 →
      (combine_grades taskId (some [("automated", aw), ("llm_judge", lw)]) a l).score =
        (a.score + l.score) / 2) ∧
    (combine_grades "t" (some [("automated", 3/10), ("llm_judge", 7/10)])
      { task_id := "t", score := 4/5, max_score := 1, grading_type := "automated",
        breakdown := [], notes := "" }
      { task_id := "t", score := 2/5, max_score := 1, grading_type := "llm_judge",
        breakdown := [], notes := "" }).score = 13/25 := by
  refine ⟨?_, ?_, ?_, ?_⟩
  · intro taskId a l aw lw hpos
    simp [combine_grades, List.find?, not_le.mpr hpos]
  · intro taskId a l
    simp [combine_grades, List.find?]
    split <;> ring
  · intro taskId a l aw lw htw
    simp [combine_grades, List.find?, htw]
    ring
  · simp [combine_grades, List.find?]
    norm_num

/-- C5 (witness): the normalized-combination conjunct applied at
weights 0.3/0.7 with scores 1 and 0. -/
theorem C5_witness :
    (combine_grades "w" (some [("automated", 3/10), ("llm_judge", 7/10)])
      { task_id := "w", score := 1, max_score := 1, grading_type := "automated",
        breakdown := [], notes := "" }
      { task_id := "w", score := 0, max_score := 1, grading_type := "llm_judge",
        breakdown := [], notes := "" }).score =
      ((1 : ℚ) * (3/10) + (0 : ℚ) * (7/10)) / (3/10 + 7/10) :=
  C5_hybrid_combination.1 "w"
    { task_id := "w", score := 1, max_score := 1, grading_type := "automated",
      breakdown := [], notes := "" }
    { task_id := "w", score := 0, max_score := 1, grading_type := "llm_judge",
      breakdown := [], notes := "" }
    (3/10) (7/10) (by norm_num)

/-- C10: the automated breakdown keeps exactly the float-coercible
entries (including numeric strings, which `float(·)` accepts) while
the score averages only int/float instances, so a mapping whose values
are all numeric strings has score 0.0 with a non-empty breakdown, and
the score is not the mean of the breakdown values. -/
theorem C10_breakdown_coercion :
    (∀ (taskId : String) (g : PyVal → PyVal → Except String PyVal) (tr ws : PyVal)
        (es : List (String × PyVal)), g tr ws = Except.ok (PyVal.dict es) →
      ∃ r, grade_automated taskId (GradingSource.callable g) tr ws = Except.ok r ∧
        r.breakdown = es.filterMap (fun kv => (pyFloat kv.2).map (fun q => (kv.1, q))) ∧
        r.score = average_scores es) ∧
    pyFloat (PyVal.str "1.0") = some 1 ∧
    (∃ r, grade_automated "t" (GradingSource.callable
        (fun _ _ => Except.ok (PyVal.dict [("a", PyVal.str "1.0"), ("b", PyVal.str "0.5")])))
      (PyVal.list []) (PyVal.str "") = Except.ok r ∧
      r.score = 0 ∧ r.breakdown = [("a", 1), ("b", 1/2)] ∧ r.breakdown ≠ [] ∧
      r.score ≠ ((r.breakdown.map (fun kv => kv.2)).sum / (r.breakdown.length : ℚ))) := by
  have h10 : parse_decimal "1.0" = some 1 := by
    rw [show parse_decimal "1.0" =
      some ((1:ℚ) * (((1:ℕ):ℚ) + ((0:ℕ):ℚ) / (10:ℚ) ^ 1)) from rfl]
    norm_num
  have h05 : parse_decimal "0.5" = some (1/2) := by
    rw [show parse_decimal "0.5" =
      some ((1:ℚ) * (((0:ℕ):ℚ) + ((5:ℕ):ℚ) / (10:ℚ) ^ 1)) from rfl]
    norm_num
  refine ⟨?_, ?_, ?_⟩
  · intro taskId g tr ws es hg
    unfold grade_automated
    dsimp only
    rw [hg]
    dsimp only
    refine ⟨_, rfl, ?_, rfl⟩
    simp only [normalize_score_dict]
  · simp [pyFloat, h10]
  · have hr : grade_automated "t" (GradingSource.callable
        (fun _ _ => Except.ok (PyVal.dict [("a", PyVal.str "1.0"), ("b", PyVal.str "0.5")])))
        (PyVal.list []) (PyVal.str "") =
        Except.ok { task_id := "t", score := 0, max_score := 1, grading_type := "automated",
                    breakdown := [("a", 1), ("b", (1:ℚ)/2)], notes := "" } := by
      simp [grade_automated, average_scores, normalize_score_dict, pyFloat,
        PyVal.isNumber, PyVal.toQ, h10, h05]
    refine ⟨_, hr, rfl, rfl, ?_, ?_⟩
    · simp
    · simp
      norm_num

/-- C10 (witness): the breakdown conjunct applied to the concrete
mapping a ↦ True, whose boolean value `float(·)` coerces to 1.0. -/
theorem C10_witness :
    ∃ r, grade_automated "t" (GradingSource.callable
      (fun _ _ => Except.ok (PyVal.dict [("a", PyVal.bool true)])))
      (PyVal.list []) (PyVal.str "") = Except.ok r ∧ r.breakdown = [("a", 1)] := by
  obtain ⟨r, hr, hb, hs⟩ := C10_breakdown_coercion.1 "t"
    (fun _ _ => Except.ok (PyVal.dict [("a", PyVal.bool true)]))
    (PyVal.list []) (PyVal.str "") [("a", PyVal.bool true)] rfl
  refine ⟨r, hr, ?_⟩
  rw [hb]
  simp [pyFloat]

lemma find_scores_dict_append (J : String → Except String PyVal) (xs ys : List String)
    (h : ∀ c ∈ xs, ∀ es, J c = Except.ok (PyVal.dict es) →
      (dictGet es "scores").isSome = false) :
    find_scores_dict J (xs ++ ys) = find_scores_dict J ys := by
  induction xs with
  | nil => rfl
  | cons c rest ih =>
    have hrest : ∀ c' ∈ rest, ∀ es, J c' = Except.ok (PyVal.dict es) →
        (dictGet es "scores").isSome = false :=
      fun c' h' => h c' (List.mem_cons_of_mem _ h')
    rw [List.cons_append]
    show (match J c with
      | Except.ok (PyVal.dict es) =>
        if (dictGet es "scores").isSome then some es else find_scores_dict J (rest ++ ys)
      | _ => find_scores_dict J (rest ++ ys)) = find_scores_dict J ys
    cases hj : J c with
    | error e => exact ih hrest
    | ok v =>
      cases v with
      | dict es =>
        dsimp only
        rw [h c (List.mem_cons_self _ _) es hj]
        simp only [Bool.false_eq_true, if_false]
        exact ih hrest
      | none => exact ih hrest
      | bool b => exact ih hrest
      | int n => exact ih hrest
      | float q => exact ih hrest
      | str s => exact ih hrest
      | list xs' => exact ih hrest

lemma find_scores_dict_cons_hit (J : String → Except String PyVal) (c : String)
    (rest : List String) (es : List (String × PyVal))
    (hj : J c = Except.ok (PyVal.dict es)) (hs : (dictGet es "scores").isSome = true) :
    find_scores_dict J (c :: rest) = some es := by
  show (match J c with
    | Except.ok (PyVal.dict es) =>
      if (dictGet es "scores").isSome then some es else find_scores_dict J rest
    | _ => find_scores_dict J rest) = some es
  rw [hj]
  dsimp only
  rw [hs]
  rfl

lemma find_scores_dict_eq_none (J : String → Except String PyVal) (xs : List String)
    (h : ∀ c ∈ xs, ∀ es, J c = Except.ok (PyVal.dict es) →
      (dictGet es "scores").isSome = false) :
    find_scores_dict J xs = Option.none := by
  have := find_scores_dict_append J xs [] h
  rwa [List.append_nil] at this

lemma find_any_dict_append (J : String → Except String PyVal) (xs ys : List String)
    (h : ∀ c ∈ xs, ∀ es, J c ≠ Except.ok (PyVal.dict es)) :
    find_any_dict J (xs ++ ys) = find_any_dict J ys := by
  induction xs with
  | nil => rfl
  | cons c rest ih =>
    have hrest : ∀ c' ∈ rest, ∀ es, J c' ≠ Except.ok (PyVal.dict es) :=
      fun c' h' => h c' (List.mem_cons_of_mem _ h')
    rw [List.cons_append]
    show (match J c with
      | Except.ok (PyVal.dict es) => some es
      | _ => find_any_dict J (rest ++ ys)) = find_any_dict J ys
    cases hj : J c with
    | error e => exact ih hrest
    | ok v =>
      cases v with
      | dict es => exact absurd hj (h c (List.mem_cons_self _ _) es)
      | none => exact ih hrest
      | bool b => exact ih hrest
      | int n => exact ih hrest
      | float q => exact ih hrest
      | str s => exact ih hrest
      | list xs' => exact ih hrest

lemma find_any_dict_cons_hit (J : String → Except String PyVal) (c : String)
    (rest : List String) (es : List (String × PyVal))
    (hj : J c = Except.ok (PyVal.dict es)) :
    find_any_dict J (c :: rest) = some es := by
  show (match J c with
    | Except.ok (PyVal.dict es) => some es
    | _ => find_any_dict J rest) = some es
  rw [hj]

lemma find_any_dict_eq_none (J : String → Except String PyVal) (xs : List String)
    (h : ∀ c ∈ xs, ∀ es, J c ≠ Except.ok (PyVal.dict es)) :
    find_any_dict J xs = Option.none := by
  have := find_any_dict_append J xs [] h
  rwa [List.append_nil] at this

/-- A concrete stand-in for `json.loads` covering the two JSON blobs
of the two-blob parsing example. -/
def judge_example_loads : String → Except String PyVal := fun s =>
  if s = "\x7b\"a\": 1\x7d" then Except.ok (PyVal.dict [("a", PyVal.int 1)])
  else if s = "\x7b\"scores\": \x7b\x7d\x7d" then
    Except.ok (PyVal.dict [("scores", PyVal.dict [])])
  else Except.error "invalid json"

/-- Raw judge text containing two balanced-brace JSON blobs: an
earlier one without a `scores` key and a more recent one with one. -/
def judge_example_text : String := "xx \x7b\"a\": 1\x7d yy \x7b\"scores\": \x7b\x7d\x7d"

/-- C6: judge-response parsing.  (1) A fenced json block that parses
as an object is preferred and returned.  (2) Without such a block, of
the balanced-brace candidates (scanned newest first) the most recent
one parsing as an object with a `scores` key is returned.  (3) If no
candidate has `scores`, the most recent candidate parsing as any
object is returned.  (4) If nothing parses as an object, the result is
empty rather than an error.  (5) Concretely, of the two blobs in
`judge_example_text` the more recent one containing `scores` is
selected over the earlier one lacking it. -/
theorem C6_judge_parsing :
    (∀ (J : String → Except String PyVal) (raw inner : String) (es : List (String × PyVal)),
      raw ≠ "" → find_json_code_block raw = some inner →
      J inner = Except.ok (PyVal.dict es) → parse_judge_text J raw = es) ∧
    (∀ (J : String → Except String PyVal) (raw c : String) (l₁ l₂ : List String)
        (es : List (String × PyVal)),
      raw ≠ "" → find_json_code_block raw = Option.none →
      json_candidates raw = l₁ ++ c :: l₂ →
      (∀ c' ∈ l₂, ∀ es', J c' = Except.ok (PyVal.dict es') →
        (dictGet es' "scores").isSome = false) →
      J c = Except.ok (PyVal.dict es) → (dictGet es "scores").isSome = true →
      parse_judge_text J raw = es) ∧
    (∀ (J : String → Except String PyVal) (raw c : String) (l₁ l₂ : List String)
        (es : List (String × PyVal)),
      raw ≠ "" → find_json_code_block raw = Option.none →
      json_candidates raw = l₁ ++ c :: l₂ →
      (∀ c' ∈ json_candidates raw, ∀ es', J c' = Except.ok (PyVal.dict es') →
        (dictGet es' "scores").isSome = false) →
      (∀ c' ∈ l₂, ∀ es', J c' ≠ Except.ok (PyVal.dict es')) →
      J c = Except.ok (PyVal.dict es) →
      parse_judge_text J raw = es) ∧
    (∀ (J : String → Except String PyVal) (raw : String),
      raw ≠ "" → find_json_code_block raw = Option.none →
      (∀ c ∈ json_candidates raw, ∀ es, J c ≠ Except.ok (PyVal.dict es)) →
      parse_judge_text J raw = []) ∧
    parse_judge_text judge_example_loads judge_example_text =
      [("scores", PyVal.dict [])] := by
  have hrev : ∀ (l₁ l₂ : List String) (c : String),
      (l₁ ++ c :: l₂).reverse = l₂.reverse ++ c :: l₁.reverse := by
    intro l₁ l₂ c
    simp
  refine ⟨?_, ?_, ?_, ?_, rfl⟩
  · intro J raw inner es hraw hblock hj
    unfold parse_judge_text
    rw [if_neg hraw]
    dsimp only
    rw [hblock]
    dsimp only
    rw [hj]
  · intro J raw c l₁ l₂ es hraw hblock hsplit hl₂ hc hs
    unfold parse_judge_text
    rw [if_neg hraw]
    dsimp only
    rw [hblock]
    dsimp only
    rw [hsplit, hrev l₁ l₂ c,
      find_scores_dict_append J l₂.reverse (c :: l₁.reverse)
        (fun c' h' => hl₂ c' (List.mem_reverse.mp h')),
      find_scores_dict_cons_hit J c l₁.reverse es hc hs]
  · intro J raw c l₁ l₂ es hraw hblock hsplit hnos hl₂ hc
    unfold parse_judge_text
    rw [if_neg hraw]
    dsimp only
    rw [hblock]
    dsimp only
    rw [hsplit, hrev l₁ l₂ c]
    rw [show find_scores_dict J (l₂.reverse ++ c :: l₁.reverse) = Option.none from by
      rw [← hrev l₁ l₂ c, ← hsplit]
      exact find_scores_dict_eq_none J _ (fun c' h' => hnos c' (List.mem_reverse.mp h'))]
    rw [find_any_dict_append J l₂.reverse (c :: l₁.reverse)
        (fun c' h' => hl₂ c' (List.mem_reverse.mp h')),
      find_any_dict_cons_hit J c l₁.reverse es hc]
  · intro J raw hraw hblock hnod
    unfold parse_judge_text
    rw [if_neg hraw]
    dsimp only
    rw [hblock]
    dsimp only
    rw [show find_scores_dict J (json_candidates raw).reverse = Option.none from
      find_scores_dict_eq_none J _ (fun c' h' es hj =>
        absurd hj (hnod c' (List.mem_reverse.mp h') es))]
    rw [show find_any_dict J (json_candidates raw).reverse = Option.none from
      find_any_dict_eq_none J _ (fun c' h' => hnod c' (List.mem_reverse.mp h'))]

/-- C6 (witness): the fenced-block conjunct applied to a concrete raw
text whose json code fence holds an empty object. -/
theorem C6_witness :
    parse_judge_text
      (fun s => if s = "\x7b\x7d" then Except.ok (PyVal.dict []) else Except.error "bad")
      "```json \x7b\x7d ```" = [] :=
  C6_judge_parsing.1
    (fun s => if s = "\x7b\x7d" then Except.ok (PyVal.dict []) else Except.error "bad")
    "```json \x7b\x7d ```" "\x7b\x7d" [] (by decide) rfl rfl

end PinchBench
